import Mathlib

/-!
Verification of the livenote note-sync service (Go) against its
natural-language specification.

The embedding below is a shallow translation of the Go sources:
the note store (`notes []Note` guarded by a global mutex) becomes an
explicit `Store = List Note` threaded through the handlers, each HTTP
handler becomes a pure function from its decoded inputs and the current
store to a `Response` (and a new store, for the mutating handlers).

External collaborators are parameters of the embedding:
- the markdown renderer (`mdToHTML`, library `gomarkdown`) is threaded
  as a parameter `render : String → String`;
- bcrypt verification of a password against the stored hash
  (`bcrypt.CompareHashAndPassword`) is a parameter
  `verify : String → Bool`;
- JSON decoding of the sync request body is abstracted to its outcome:
  `Option SyncReq` (`none` models `json.Unmarshal` failing).

Go loops of the form `for i, note := range notes { if note.Title ==
title { ...; break } }` act on the first note with a matching title;
they are translated to structural recursion on the list
(`findTitle`, `updateBodyFirst`, `deleteFirst`, `shareFirst`).

`subtle.ConstantTimeCompare(a, b)` returns 1 exactly when the two byte
slices have the same length and contents, i.e. exactly when the strings
they encode are equal (UTF-8 encoding is injective); the username check
is therefore translated to string equality.

The body-read failure branch (`ioutil.ReadAll` error → 500) is an I/O
condition outside this model; all other branches of the handlers are
translated.
-/

namespace Livenote

/-- A note, as in the Go `Note` struct of the latest server revision:
title, body and the shared flag. -/
structure Note where
  title : String
  body : String
  shared : Bool
deriving Repr, DecidableEq

/-- The in-memory note collection (`notes []Note` in the Go source). -/
abbrev Store := List Note

/-- The decoded JSON payload of a sync request.  The Go handler decodes
into a full `Note`, but the `Shared` field of the payload is never read
(the create branch builds the note with `Shared: false` explicitly and
the update branch copies only `Body`), so the payload is modelled by its
two used fields. -/
structure SyncReq where
  title : String
  body : String
deriving Repr, DecidableEq

/-- An HTTP response, reduced to the facets the handlers set: status
code, body text, and whether a `WWW-Authenticate: Basic` challenge
header was set. -/
structure Response where
  status : Nat
  body : String
  wwwAuthenticate : Bool
deriving Repr, DecidableEq

def msgMissingTitle : String := "Missing title query parameter"

def msgNoteNotFound : String := "Note not found"

def msgUnauthorized : String := "Unauthorized"

/-- `http.Error(w, ..., http.StatusBadRequest)` -/
def badRequest (b : String) : Response := ⟨400, b, false⟩

/-- `http.Error(w, ..., http.StatusNotFound)` -/
def notFound (b : String) : Response := ⟨404, b, false⟩

/-- 200 response with a plaintext confirmation body. -/
def ok (b : String) : Response := ⟨200, b, false⟩

/-- The 401 response produced after setting the `WWW-Authenticate`
challenge header. -/
def unauthorized : Response := ⟨401, msgUnauthorized, true⟩

/-- First note with the given title, as found by the Go loops
`for _, note := range notes { if note.Title == title { ... } }`. -/
def findTitle (t : String) : Store → Option Note
  | [] => none
  | n :: ns => if n.title = t then some n else findTitle t ns

/-- Whether some note with the given title exists (the `exists` /
`deleted` / `shared` flags set inside the Go loops). -/
def existsTitle (t : String) : Store → Bool
  | [] => false
  | n :: ns => if n.title = t then true else existsTitle t ns

/-- `notes[i].Body = newBody` for the first `i` whose title matches
(the update branch of `syncNoteHandlerInner`). -/
def updateBodyFirst (t b : String) : Store → Store
  | [] => []
  | n :: ns => if n.title = t then { n with body := b } :: ns
               else n :: updateBodyFirst t b ns

/-- `notes = append(notes[:i], notes[i+1:]...)` for the first matching
`i` (the loop of `deleteNoteHandler`). -/
def deleteFirst (t : String) : Store → Store
  | [] => []
  | n :: ns => if n.title = t then ns else n :: deleteFirst t ns

/-- `notes[i].Shared = true` for the first matching `i` (the loop of
`shareNoteHandler`). -/
def shareFirst (t : String) : Store → Store
  | [] => []
  | n :: ns => if n.title = t then { n with shared := true } :: ns
               else n :: shareFirst t ns

/-- Core of the sync handlers (`syncNoteHandlerInner` in the latest
revision).  `req = none` models `json.Unmarshal` failing (the Go code
answers 400 with the unmarshal error text; the model uses a fixed
message, no claim depends on it).  When the title already exists the
first matching note's body is replaced; otherwise a new note with
`shared = false` is appended.  On the rendered path (`raw = false`) the
body is passed through the markdown renderer first. -/
def syncNoteHandlerInner (render : String → String) (raw : Bool)
    (req : Option SyncReq) (s : Store) : Response × Store :=
  match req with
  | none => (badRequest "invalid JSON", s)
  | some un =>
    let newBody := if raw then un.body else render un.body
    if existsTitle un.title s then
      (ok ("Note synced: " ++ un.title), updateBodyFirst un.title newBody s)
    else
      (ok ("Note synced: " ++ un.title), s ++ [⟨un.title, newBody, false⟩])

/-- `/sync`: rendered sync (`syncNoteHandlerInner(w, r, false)`). -/
def syncNoteHandler (render : String → String) (req : Option SyncReq)
    (s : Store) : Response × Store :=
  syncNoteHandlerInner render false req s

/-- `/sync-raw`: raw sync (`syncNoteHandlerInner(w, r, true)`). -/
def syncNoteRawHandler (render : String → String) (req : Option SyncReq)
    (s : Store) : Response × Store :=
  syncNoteHandlerInner render true req s

/-- `/delete`: a missing `title` query parameter reads as the empty
string (`r.URL.Query().Get` returns `""` when absent). -/
def deleteNoteHandler (title : String) (s : Store) : Response × Store :=
  if title = "" then (badRequest msgMissingTitle, s)
  else if existsTitle title s then
    (ok ("Note deleted: " ++ title), deleteFirst title s)
  else (notFound msgNoteNotFound, s)

/-- `/share`: same shape as delete, setting the shared flag on the
first matching note. -/
def shareNoteHandler (title : String) (s : Store) : Response × Store :=
  if title = "" then (badRequest msgMissingTitle, s)
  else if existsTitle title s then
    (ok ("Note shared: " ++ title), shareFirst title s)
  else (notFound msgNoteNotFound, s)

/-- The basic-auth check shared by `authMiddleware` and
`readNoteHandler`: `r.BasicAuth()` yields the credentials (`none` when
the header is absent or malformed, i.e. `ok == false`); the username
must pass `subtle.ConstantTimeCompare` against the configured one
(equality of byte strings) and the password must pass
`checkPassword`, i.e. bcrypt verification against the stored hash,
modelled by `verify`. -/
def authOk (username : String) (verify : String → Bool) :
    Option (String × String) → Bool
  | none => false
  | some (u, p) => if u = username then verify p else false

/-- `authMiddleware`: on auth failure, set the challenge header and
answer 401 without invoking the wrapped handler; on success, delegate
to the wrapped handler unchanged. -/
def authMiddleware (next : Store → Response × Store) (username : String)
    (verify : String → Bool) (creds : Option (String × String))
    (s : Store) : Response × Store :=
  if authOk username verify creds then next s
  else (unauthorized, s)

/-- Segments of the page template of `renderNoteHTML` (latest
revision): the Go raw-string literal `s` split at its three `%s`
verbs.  `fmt.Fprintf(w, s, note.Title, note.Body, note.Title)`
substitutes the title, the body and the title again, in that order. -/
def pageSeg0 : String :=
  "\n<html>\n  <head>\n    <meta name='viewport' content='width=device-width, initial-scale=1'>\n    <link rel='stylesheet' href='https://divy.work/tufte.css'>\n  </head>\n  <body>\n    <article>\n      <h1>"

def pageSeg1 : String :=
  "</h1>\n      <hr>\n      <div contenteditable style='outline: none;'>\n        "

def pageSeg2 : String :=
  "\n      </div>\n    </article>\n    <script>\n      const saveNote = (title, body) => \x7b\n        fetch('/sync-raw', \x7b\n          method: 'POST',\n          headers: \x7b\n            'Content-Type': 'application/json',\n          \x7d,\n          body: JSON.stringify(\x7b\n            title: title,\n            body: body,\n          \x7d),\n        \x7d);\n      \x7d;\n\n      const debounce = (func, delay) => \x7b\n        let inDebounce;\n        return function() \x7b\n          const context = this;\n          const args = arguments;\n          clearTimeout(inDebounce);\n          inDebounce = setTimeout(() => func.apply(context, args), delay);\n\n          document.querySelector('body').style.cursor = 'wait';\n          setTimeout(() => \x7b\n            document.querySelector('body').style.cursor = 'auto';\n          \x7d, delay);\n\n          const savedMessage = document.createElement('div');\n          savedMessage.innerHTML = 'Saving';\n          savedMessage.style.position = 'fixed';\n          savedMessage.style.bottom = '10px';\n          savedMessage.style.right = '10px';\n          savedMessage.style.backgroundColor = 'black';\n          savedMessage.style.color = 'white';\n          savedMessage.style.padding = '10px';\n          savedMessage.style.borderRadius = '5px';\n          document.body.appendChild(savedMessage);\n          setTimeout(() => \x7b\n            savedMessage.remove();\n          \x7d, 2000);\n        \x7d;\n      \x7d;\n\n      const noteTitle = '"

def pageSeg3 : String :=
  "';\n      const noteBody = document.querySelector('div[contenteditable]');\n      noteBody.addEventListener('input', debounce(() => \x7b\n        saveNote(noteTitle, noteBody.innerHTML);\n      \x7d, 2000));\n    </script>\n  </body>\n</html>"

/-- `renderNoteHTML` of the latest revision: the template with title,
body and title substituted for the three `%s` verbs.  The body is an
argument of `Fprintf`, so it appears verbatim in the output. -/
def renderNoteHTML (n : Note) : String :=
  pageSeg0 ++ n.title ++ pageSeg1 ++ n.body ++ pageSeg2 ++ n.title ++ pageSeg3

/-- `/x/{title}` (`readNoteHandler`): the title is the path suffix;
empty → 400; unknown → 404; shared note → the page, unconditionally;
unshared note → the page behind the basic-auth check, otherwise 401
with the challenge header.  This handler never mutates the store. -/
def readNoteHandler (username : String) (verify : String → Bool)
    (creds : Option (String × String)) (title : String) (s : Store) :
    Response :=
  if title = "" then badRequest msgMissingTitle
  else
    match findTitle title s with
    | some n =>
      if n.shared then ⟨200, renderNoteHTML n, false⟩
      else if authOk username verify creds then ⟨200, renderNoteHTML n, false⟩
      else unauthorized
    | none => notFound msgNoteNotFound

/-- `strings.Contains(t, ".")`: containment of the one-character
substring `.` is containment of the character `.` (stated over the
character list so that concrete instances evaluate). -/
def titleHasDot (t : String) : Bool := t.data.contains '.'

/-- `strings.HasSuffix(t, suf)`, over the character lists. -/
def strEndsWith (t suf : String) : Bool := suf.data.isSuffixOf t.data

/-- The title-based markdown test of the CLI client
(`client.go`, `addOrUpdateNote`): `!strings.Contains(title, ".") ||
strings.HasSuffix(title, ".md")`. -/
def isMdTitle (t : String) : Bool :=
  (!(titleHasDot t)) || strEndsWith t ".md"

/-- Modelled from the spec: the markdown renderer `mdToHTML`
(library `gomarkdown`) is an external collaborator whose source is not
part of this repository; the spec treats it as a black box and requires
only that markdown source renders to HTML (e.g. a `# Hi` line renders
to HTML containing `<h1>`, plain text becomes a paragraph).  This is a
minimal renderer exhibiting that behaviour, used to instantiate the
`render` parameter at concrete inputs. -/
def mdToHTMLModel (s : String) : String :=
  if "# ".data.isPrefixOf s.data then
    "<h1>" ++ String.mk (s.data.drop 2) ++ "</h1>\n"
  else "<p>" ++ s ++ "</p>\n"

/-- A store operation, for stating properties of operation sequences:
an upsert through a sync endpoint (raw or rendered), a delete, or a
mark-shared. -/
inductive Op where
  | upsert (raw : Bool) (title body : String)
  | del (title : String)
  | share (title : String)
deriving Repr, DecidableEq

/-- The store after one operation (the response is dropped). -/
def applyOp (render : String → String) (op : Op) (s : Store) : Store :=
  match op with
  | .upsert raw t b => (syncNoteHandlerInner render raw (some ⟨t, b⟩) s).2
  | .del t => (deleteNoteHandler t s).2
  | .share t => (shareNoteHandler t s).2

/-- The store after a sequence of operations, applied left to right. -/
def applyOps (render : String → String) : List Op → Store → Store
  | [], s => s
  | op :: ops, s => applyOps render ops (applyOp render op s)

/-- The shared flag of the (first) note with the given title, `false`
when no such note exists. -/
def noteShared (t : String) (s : Store) : Bool :=
  match findTitle t s with
  | some n => n.shared
  | none => false

/-- All titles in the store are pairwise distinct. -/
def titlesNodup (s : Store) : Prop := (s.map Note.title).Nodup

instance (s : Store) : Decidable (titlesNodup s) := by
  unfold titlesNodup; infer_instance

/-- Notes whose title differs from `t` (used to state frame
conditions). -/
def filterNe (t : String) : Store → Store
  | [] => []
  | n :: ns => if n.title = t then filterNe t ns else n :: filterNe t ns

/-! ### Helper lemmas about the store primitives -/

theorem findTitle_some_title {t : String} {s : Store} {n : Note}
    (h : findTitle t s = some n) : n.title = t := by
  induction s with
  | nil => simp [findTitle] at h
  | cons m ms ih =>
    by_cases hm : m.title = t
    · simp [findTitle, hm] at h
      exact h ▸ hm
    · simp [findTitle, hm] at h
      exact ih h

theorem existsTitle_eq_isSome (t : String) (s : Store) :
    existsTitle t s = (findTitle t s).isSome := by
  induction s with
  | nil => rfl
  | cons m ms ih =>
    by_cases hm : m.title = t <;> simp [existsTitle, findTitle, hm, ih]

theorem existsTitle_false_iff (t : String) (s : Store) :
    existsTitle t s = false ↔ t ∉ s.map Note.title := by
  induction s with
  | nil => simp [existsTitle]
  | cons m ms ih =>
    by_cases hm : m.title = t
    · simp [existsTitle, hm]
    · have hm' : ¬ t = m.title := fun hc => hm hc.symm
      simp [existsTitle, hm, hm', ih]

theorem map_title_updateBodyFirst (t b : String) (s : Store) :
    (updateBodyFirst t b s).map Note.title = s.map Note.title := by
  induction s with
  | nil => rfl
  | cons m ms ih =>
    by_cases hm : m.title = t <;> simp [updateBodyFirst, hm, ih]

theorem map_shared_updateBodyFirst (t b : String) (s : Store) :
    (updateBodyFirst t b s).map Note.shared = s.map Note.shared := by
  induction s with
  | nil => rfl
  | cons m ms ih =>
    by_cases hm : m.title = t <;> simp [updateBodyFirst, hm, ih]

theorem length_updateBodyFirst (t b : String) (s : Store) :
    (updateBodyFirst t b s).length = s.length := by
  induction s with
  | nil => rfl
  | cons m ms ih =>
    by_cases hm : m.title = t <;> simp [updateBodyFirst, hm, ih]

theorem findTitle_updateBodyFirst_self (t b : String) (s : Store) :
    findTitle t (updateBodyFirst t b s)
      = (findTitle t s).map (fun n => { n with body := b }) := by
  induction s with
  | nil => rfl
  | cons m ms ih =>
    by_cases hm : m.title = t
    · simp [updateBodyFirst, findTitle, hm]
    · simp [updateBodyFirst, findTitle, hm, ih]

theorem findTitle_updateBodyFirst_ne {t t' : String} (h : t ≠ t')
    (b : String) (s : Store) :
    findTitle t (updateBodyFirst t' b s) = findTitle t s := by
  have hne : ¬ t' = t := Ne.symm h
  induction s with
  | nil => rfl
  | cons m ms ih =>
    by_cases hm : m.title = t'
    · simp [updateBodyFirst, findTitle, hm, hne]
    · by_cases hmt : m.title = t <;>
        simp [updateBodyFirst, findTitle, hm, hmt, ih, h, hne]

theorem map_title_shareFirst (t : String) (s : Store) :
    (shareFirst t s).map Note.title = s.map Note.title := by
  induction s with
  | nil => rfl
  | cons m ms ih =>
    by_cases hm : m.title = t <;> simp [shareFirst, hm, ih]

theorem length_shareFirst (t : String) (s : Store) :
    (shareFirst t s).length = s.length := by
  induction s with
  | nil => rfl
  | cons m ms ih =>
    by_cases hm : m.title = t <;> simp [shareFirst, hm, ih]

theorem findTitle_shareFirst_self (t : String) (s : Store) :
    findTitle t (shareFirst t s)
      = (findTitle t s).map (fun n => { n with shared := true }) := by
  induction s with
  | nil => rfl
  | cons m ms ih =>
    by_cases hm : m.title = t
    · simp [shareFirst, findTitle, hm]
    · simp [shareFirst, findTitle, hm, ih]

theorem findTitle_shareFirst_ne {t t' : String} (h : t ≠ t') (s : Store) :
    findTitle t (shareFirst t' s) = findTitle t s := by
  have hne : ¬ t' = t := Ne.symm h
  induction s with
  | nil => rfl
  | cons m ms ih =>
    by_cases hm : m.title = t'
    · simp [shareFirst, findTitle, hm, hne]
    · by_cases hmt : m.title = t <;>
        simp [shareFirst, findTitle, hm, hmt, ih, h, hne]

theorem sublist_deleteFirst (t : String) (s : Store) :
    (deleteFirst t s).Sublist s := by
  induction s with
  | nil => exact List.Sublist.refl _
  | cons m ms ih =>
    by_cases hm : m.title = t
    · rw [deleteFirst, if_pos hm]
      exact List.sublist_cons_self m ms
    · simpa [deleteFirst, hm] using List.Sublist.cons₂ m ih

theorem length_deleteFirst {t : String} {s : Store}
    (h : existsTitle t s = true) :
    (deleteFirst t s).length + 1 = s.length := by
  induction s with
  | nil => simp [existsTitle] at h
  | cons m ms ih =>
    by_cases hm : m.title = t
    · simp [deleteFirst, hm]
    · rw [existsTitle, if_neg hm] at h
      simp [deleteFirst, hm, ih h]

theorem findTitle_deleteFirst_ne {t t' : String} (h : t ≠ t') (s : Store) :
    findTitle t (deleteFirst t' s) = findTitle t s := by
  have hne : ¬ t' = t := Ne.symm h
  induction s with
  | nil => rfl
  | cons m ms ih =>
    by_cases hm : m.title = t'
    · simp [deleteFirst, findTitle, hm, hne]
    · by_cases hmt : m.title = t <;>
        simp [deleteFirst, findTitle, hm, hmt, ih, h, hne]

theorem existsTitle_deleteFirst_self {t : String} {s : Store}
    (h : titlesNodup s) : existsTitle t (deleteFirst t s) = false := by
  induction s with
  | nil => rfl
  | cons m ms ih =>
    rw [titlesNodup, List.map_cons, List.nodup_cons] at h
    by_cases hm : m.title = t
    · rw [deleteFirst, if_pos hm]
      rw [existsTitle_false_iff]
      exact hm ▸ h.1
    · rw [deleteFirst, if_neg hm, existsTitle, if_neg hm]
      exact ih h.2

theorem findTitle_append_left {t : String} {s : Store} {n : Note}
    (h : findTitle t s = some n) (l : Store) :
    findTitle t (s ++ l) = some n := by
  induction s with
  | nil => simp [findTitle] at h
  | cons m ms ih =>
    by_cases hm : m.title = t
    · simp [findTitle, hm] at h ⊢
      exact h
    · simp [findTitle, hm] at h ⊢
      exact ih h

theorem findTitle_append_right {t : String} {s : Store}
    (h : existsTitle t s = false) (l : Store) :
    findTitle t (s ++ l) = findTitle t l := by
  induction s with
  | nil => rfl
  | cons m ms ih =>
    by_cases hm : m.title = t
    · rw [existsTitle, if_pos hm] at h
      exact absurd h (by simp)
    · rw [existsTitle, if_neg hm] at h
      simp [findTitle, hm, ih h]

theorem filterNe_updateBodyFirst (t b : String) (s : Store) :
    filterNe t (updateBodyFirst t b s) = filterNe t s := by
  induction s with
  | nil => rfl
  | cons m ms ih =>
    by_cases hm : m.title = t
    · simp [updateBodyFirst, filterNe, hm]
    · simp [updateBodyFirst, filterNe, hm, ih]

theorem filterNe_shareFirst (t : String) (s : Store) :
    filterNe t (shareFirst t s) = filterNe t s := by
  induction s with
  | nil => rfl
  | cons m ms ih =>
    by_cases hm : m.title = t
    · simp [shareFirst, filterNe, hm]
    · simp [shareFirst, filterNe, hm, ih]

theorem filterNe_deleteFirst (t : String) (s : Store) :
    filterNe t (deleteFirst t s) = filterNe t s := by
  induction s with
  | nil => rfl
  | cons m ms ih =>
    by_cases hm : m.title = t
    · simp [deleteFirst, filterNe, hm]
    · simp [deleteFirst, filterNe, hm, ih]

theorem filterNe_append (t : String) (s l : Store) :
    filterNe t (s ++ l) = filterNe t s ++ filterNe t l := by
  induction s with
  | nil => rfl
  | cons m ms ih =>
    by_cases hm : m.title = t <;> simp [filterNe, hm, ih]

theorem titlesNodup_append_single {s : Store} {t : String} (b : String)
    (h : titlesNodup s) (hn : existsTitle t s = false) :
    titlesNodup (s ++ [⟨t, b, false⟩]) := by
  rw [titlesNodup, List.map_append, List.nodup_append]
  refine ⟨h, List.nodup_singleton _, ?_⟩
  intro a ha hb
  simp at hb
  rw [existsTitle_false_iff] at hn
  exact hn (hb ▸ ha)

theorem titlesNodup_updateBodyFirst (t b : String) {s : Store}
    (h : titlesNodup s) : titlesNodup (updateBodyFirst t b s) := by
  rw [titlesNodup, map_title_updateBodyFirst]
  exact h

theorem titlesNodup_shareFirst (t : String) {s : Store}
    (h : titlesNodup s) : titlesNodup (shareFirst t s) := by
  rw [titlesNodup, map_title_shareFirst]
  exact h

theorem titlesNodup_deleteFirst (t : String) {s : Store}
    (h : titlesNodup s) : titlesNodup (deleteFirst t s) := by
  exact List.Nodup.sublist ((sublist_deleteFirst t s).map Note.title) h

/-! ### Characterizations of the handler results -/

theorem syncState_exists {render : String → String} {raw : Bool}
    {t b : String} {s : Store} (he : existsTitle t s = true) :
    (syncNoteHandlerInner render raw (some ⟨t, b⟩) s).2
      = updateBodyFirst t (if raw then b else render b) s := by
  simp [syncNoteHandlerInner, he]

theorem syncState_notExists {render : String → String} {raw : Bool}
    {t b : String} {s : Store} (he : existsTitle t s = false) :
    (syncNoteHandlerInner render raw (some ⟨t, b⟩) s).2
      = s ++ [⟨t, if raw then b else render b, false⟩] := by
  simp [syncNoteHandlerInner, he]

theorem syncResp_some (render : String → String) (raw : Bool)
    (t b : String) (s : Store) :
    (syncNoteHandlerInner render raw (some ⟨t, b⟩) s).1
      = ok ("Note synced: " ++ t) := by
  by_cases he : existsTitle t s = true <;> simp [syncNoteHandlerInner, he]

theorem delState_empty {t : String} (s : Store) (h : t = "") :
    (deleteNoteHandler t s).2 = s := by
  simp [deleteNoteHandler, h]

theorem delState_notExists {t : String} {s : Store}
    (he : existsTitle t s = false) : (deleteNoteHandler t s).2 = s := by
  by_cases h0 : t = "" <;> simp [deleteNoteHandler, h0, he]

theorem delState_exists {t : String} {s : Store} (h0 : t ≠ "")
    (he : existsTitle t s = true) :
    (deleteNoteHandler t s).2 = deleteFirst t s := by
  simp [deleteNoteHandler, h0, he]

theorem shareState_empty {t : String} (s : Store) (h : t = "") :
    (shareNoteHandler t s).2 = s := by
  simp [shareNoteHandler, h]

theorem shareState_notExists {t : String} {s : Store}
    (he : existsTitle t s = false) : (shareNoteHandler t s).2 = s := by
  by_cases h0 : t = "" <;> simp [shareNoteHandler, h0, he]

theorem shareState_exists {t : String} {s : Store} (h0 : t ≠ "")
    (he : existsTitle t s = true) :
    (shareNoteHandler t s).2 = shareFirst t s := by
  simp [shareNoteHandler, h0, he]

/-! ### Preservation lemmas for operation sequences -/

theorem titlesNodup_applyOp (render : String → String) (op : Op)
    {s : Store} (h : titlesNodup s) : titlesNodup (applyOp render op s) := by
  cases op with
  | upsert raw t b =>
    by_cases he : existsTitle t s = true
    · rw [applyOp, syncState_exists he]
      exact titlesNodup_updateBodyFirst _ _ h
    · have he' : existsTitle t s = false := by simpa using he
      rw [applyOp, syncState_notExists he']
      exact titlesNodup_append_single _ h he'
  | del t =>
    by_cases h0 : t = ""
    · rw [applyOp, delState_empty s h0]; exact h
    · by_cases he : existsTitle t s = true
      · rw [applyOp, delState_exists h0 he]
        exact titlesNodup_deleteFirst _ h
      · rw [applyOp, delState_notExists (by simpa using he)]; exact h
  | share t =>
    by_cases h0 : t = ""
    · rw [applyOp, shareState_empty s h0]; exact h
    · by_cases he : existsTitle t s = true
      · rw [applyOp, shareState_exists h0 he]
        exact titlesNodup_shareFirst _ h
      · rw [applyOp, shareState_notExists (by simpa using he)]; exact h

theorem titlesNodup_applyOps (render : String → String) :
    ∀ (ops : List Op) (s : Store), titlesNodup s →
      titlesNodup (applyOps render ops s)
  | [], _, h => h
  | op :: ops, s, h =>
    titlesNodup_applyOps render ops (applyOp render op s)
      (titlesNodup_applyOp render op h)

theorem noteShared_eq_true_iff {t : String} {s : Store} :
    noteShared t s = true
      ↔ ∃ n, findTitle t s = some n ∧ n.shared = true := by
  unfold noteShared
  cases h : findTitle t s <;> simp

theorem noteShared_applyOp (render : String → String) (op : Op)
    {t : String} {s : Store} (hnd : titlesNodup s)
    (hsh : noteShared t s = true)
    (hex : existsTitle t (applyOp render op s) = true) :
    noteShared t (applyOp render op s) = true := by
  obtain ⟨n, hfn, hns⟩ := noteShared_eq_true_iff.mp hsh
  cases op with
  | upsert raw t' b =>
    by_cases he : existsTitle t' s = true
    · rw [applyOp, syncState_exists he]
      by_cases htt : t = t'
      · subst htt
        rw [noteShared, findTitle_updateBodyFirst_self, hfn]
        simpa using hns
      · rw [noteShared, findTitle_updateBodyFirst_ne htt, hfn]
        exact hns
    · have he' : existsTitle t' s = false := by simpa using he
      rw [applyOp, syncState_notExists he', noteShared,
        findTitle_append_left hfn]
      exact hns
  | del t' =>
    by_cases h0 : t' = ""
    · rw [applyOp, delState_empty s h0]; exact hsh
    · by_cases he : existsTitle t' s = true
      · rw [applyOp, delState_exists h0 he] at hex ⊢
        by_cases htt : t = t'
        · subst htt
          rw [existsTitle_deleteFirst_self hnd] at hex
          exact absurd hex (by simp)
        · rw [noteShared, findTitle_deleteFirst_ne htt, hfn]
          exact hns
      · rw [applyOp, delState_notExists (by simpa using he)]; exact hsh
  | share t' =>
    by_cases h0 : t' = ""
    · rw [applyOp, shareState_empty s h0]; exact hsh
    · by_cases he : existsTitle t' s = true
      · rw [applyOp, shareState_exists h0 he]
        by_cases htt : t = t'
        · subst htt
          rw [noteShared, findTitle_shareFirst_self, hfn]
          rfl
        · rw [noteShared, findTitle_shareFirst_ne htt, hfn]
          exact hns
      · rw [applyOp, shareState_notExists (by simpa using he)]; exact hsh

theorem noteShared_applyOps_aux (render : String → String) (t : String) :
    ∀ (ops : List Op) (s : Store), titlesNodup s → noteShared t s = true →
      (∀ k, k ≤ ops.length →
        existsTitle t (applyOps render (ops.take k) s) = true) →
      noteShared t (applyOps render ops s) = true
  | [], _, _, hsh, _ => hsh
  | op :: ops, s, hnd, hsh, hex => by
    have h1 : existsTitle t (applyOp render op s) = true := by
      have h := hex 1 (Nat.succ_le_succ (Nat.zero_le _))
      simpa [applyOps] using h
    have hnd' := titlesNodup_applyOp render op hnd
    have hsh' := noteShared_applyOp render op hnd hsh h1
    have hex' : ∀ k, k ≤ ops.length →
        existsTitle t (applyOps render (ops.take k) (applyOp render op s))
          = true := by
      intro k hk
      have h := hex (k + 1) (Nat.succ_le_succ hk)
      simpa [applyOps, List.take_succ_cons] using h
    exact noteShared_applyOps_aux render t ops (applyOp render op s)
      hnd' hsh' hex'

theorem existsTitle_true_findTitle {t : String} {s : Store}
    (he : existsTitle t s = true) : ∃ m, findTitle t s = some m := by
  have h2 := existsTitle_eq_isSome t s
  rw [he] at h2
  exact Option.isSome_iff_exists.mp h2.symm

/-- The body stored by either sync variant for the synced title: the
request body on the raw path, its rendering on the rendered path —
independently of whether the title already existed. -/
theorem sync_stored_body (render : String → String) (raw : Bool)
    (t b : String) (s : Store) :
    ∃ n, findTitle t (syncNoteHandlerInner render raw (some ⟨t, b⟩) s).2
        = some n
      ∧ n.body = (if raw then b else render b) := by
  by_cases he : existsTitle t s = true
  · rw [syncState_exists he, findTitle_updateBodyFirst_self]
    obtain ⟨m, hm⟩ := existsTitle_true_findTitle he
    rw [hm]
    exact ⟨_, rfl, rfl⟩
  · have he' : existsTitle t s = false := by simpa using he
    rw [syncState_notExists he', findTitle_append_right he']
    refine ⟨⟨t, if raw then b else render b, false⟩, ?_, rfl⟩
    simp [findTitle]

/-! ### Claims -/

/-- C1, counterexample: the claim says that an upsert through the
rendered sync endpoint `/sync` stores the request body unmodified
whenever the title has an extension other than `.md`.  The server code
renders the body to HTML for every title: with the non-markdown title
`style.css` and request body `hello`, the stored body is the rendered
HTML paragraph, not the request body. -/
theorem sync_rendered_title_based_counterexample :
    isMdTitle "style.css" = false
    ∧ findTitle "style.css"
        (syncNoteHandler mdToHTMLModel
          (some ⟨"style.css", "hello"⟩) []).2
        = some ⟨"style.css", "<p>hello</p>\n", false⟩
    ∧ ("<p>hello</p>\n" : String) ≠ "hello" := by
  refine ⟨by decide, by decide, by decide⟩

/-- C1, amended: for every upsert through the rendered sync endpoint
`/sync`, the stored body is the markdown-to-HTML rendering of the
request body, for every title (markdown-like or not); the title-based
selection the spec describes is performed by the CLI client before
upload, not by this server operation. -/
theorem sync_rendered_always_renders (render : String → String)
    (t b : String) (s : Store) :
    ∃ n, findTitle t (syncNoteHandler render (some ⟨t, b⟩) s).2 = some n
      ∧ n.body = render b := by
  have h := sync_stored_body render false t b s
  simpa using h

/-- C2: on the publish endpoint `/x/{title}` with a nonempty title, an
unknown title answers 404; a shared note answers 200 with the note page
for every credential; an unshared note answers 200 with the note page
when basic auth succeeds and 401 with a `WWW-Authenticate` challenge
otherwise. -/
theorem readNote_spec (username : String) (verify : String → Bool)
    (t : String) (s : Store) (h : t ≠ "") :
    (findTitle t s = none →
      ∀ creds, readNoteHandler username verify creds t s
          = notFound msgNoteNotFound
        ∧ (notFound msgNoteNotFound).status = 404)
    ∧ (∀ n, findTitle t s = some n → n.shared = true →
      ∀ creds, readNoteHandler username verify creds t s
          = ⟨200, renderNoteHTML n, false⟩)
    ∧ (∀ n, findTitle t s = some n → n.shared = false →
      ∀ creds,
        (authOk username verify creds = true →
          readNoteHandler username verify creds t s
            = ⟨200, renderNoteHTML n, false⟩)
        ∧ (authOk username verify creds = false →
          readNoteHandler username verify creds t s = unauthorized
            ∧ unauthorized.status = 401
            ∧ unauthorized.wwwAuthenticate = true)) := by
  refine ⟨?_, ?_, ?_⟩
  · intro hf creds
    exact ⟨by simp [readNoteHandler, h, hf], rfl⟩
  · intro n hf hs creds
    simp [readNoteHandler, h, hf, hs]
  · intro n hf hs creds
    constructor
    · intro ha
      simp [readNoteHandler, h, hf, hs, ha]
    · intro ha
      exact ⟨by simp [readNoteHandler, h, hf, hs, ha], rfl, rfl⟩

/-- C2, witness: concrete instance — a shared note `a` is served with
the 200 page for arbitrary credentials. -/
theorem readNote_spec_witness :
    ("a" : String) ≠ ""
    ∧ (∀ n, findTitle "a" [⟨"a", "b", true⟩] = some n → n.shared = true →
      ∀ creds, readNoteHandler "u" (fun p => p == "pw") creds "a"
          [⟨"a", "b", true⟩]
        = ⟨200, renderNoteHTML n, false⟩) :=
  ⟨by decide,
   (readNote_spec "u" (fun p => p == "pw") "a" [⟨"a", "b", true⟩]
     (by decide)).2.1⟩

/-- C3: upserting an absent title appends exactly one note with
`shared = false` (count grows by one); upserting an existing title
keeps the count, every title and every shared flag unchanged, leaves
every differently-titled note untouched, and replaces the body of the
(first) note with that title. -/
theorem sync_upsert_spec (render : String → String) (raw : Bool)
    (t b : String) (s : Store) :
    (existsTitle t s = false →
      (syncNoteHandlerInner render raw (some ⟨t, b⟩) s).2
          = s ++ [⟨t, if raw then b else render b, false⟩]
        ∧ ((syncNoteHandlerInner render raw (some ⟨t, b⟩) s).2).length
            = s.length + 1)
    ∧ (existsTitle t s = true →
      ((syncNoteHandlerInner render raw (some ⟨t, b⟩) s).2).length
          = s.length
        ∧ ((syncNoteHandlerInner render raw (some ⟨t, b⟩) s).2).map
            Note.shared = s.map Note.shared
        ∧ ((syncNoteHandlerInner render raw (some ⟨t, b⟩) s).2).map
            Note.title = s.map Note.title
        ∧ filterNe t (syncNoteHandlerInner render raw (some ⟨t, b⟩) s).2
            = filterNe t s
        ∧ ∃ n, findTitle t
              (syncNoteHandlerInner render raw (some ⟨t, b⟩) s).2
            = some n ∧ n.body = (if raw then b else render b)) := by
  constructor
  · intro he
    rw [syncState_notExists he]
    simp
  · intro he
    rw [syncState_exists he]
    refine ⟨length_updateBodyFirst _ _ _, map_shared_updateBodyFirst _ _ _,
      map_title_updateBodyFirst _ _ _, filterNe_updateBodyFirst _ _ _, ?_⟩
    rw [findTitle_updateBodyFirst_self]
    obtain ⟨m, hm⟩ := existsTitle_true_findTitle he
    rw [hm]
    exact ⟨_, rfl, rfl⟩

/-- C3, witness: upserting the absent title `a` into the empty store
appends exactly the one new note with `shared = false`. -/
theorem sync_upsert_spec_witness :
    existsTitle "a" ([] : Store) = false
    ∧ ((syncNoteHandlerInner mdToHTMLModel true (some ⟨"a", "b"⟩) []).2
        = [] ++ [⟨"a", if true then "b" else mdToHTMLModel "b", false⟩]
      ∧ ((syncNoteHandlerInner mdToHTMLModel true
            (some ⟨"a", "b"⟩) []).2).length = ([] : Store).length + 1) :=
  ⟨by decide,
   (sync_upsert_spec mdToHTMLModel true "a" "b" []).1 (by decide)⟩

/-- C4, counterexample: a sync request whose JSON body is well-formed
but carries an empty title is not rejected: on the empty store it
answers 200 and creates a note, contradicting the claim that every
request with an empty title gets a 4xx and leaves the collection
unchanged. -/
theorem empty_title_sync_counterexample :
    (syncNoteHandlerInner mdToHTMLModel true
        (some ⟨"", "b"⟩) []).1.status = 200
    ∧ (syncNoteHandlerInner mdToHTMLModel true (some ⟨"", "b"⟩) []).2
        = [⟨"", "b", false⟩]
    ∧ ([⟨"", "b", false⟩] : Store) ≠ ([] : Store) := by
  refine ⟨by decide, by decide, by decide⟩

/-- C4, amended: client input errors answer 400 and leave the
collection unchanged: delete or share with a missing/empty `title`
query parameter (`Query().Get` yields the empty string when the
parameter is absent), sync with a malformed JSON body, and a read with
an empty title.  A sync request whose well-formed JSON carries an empty
title is not rejected. -/
theorem client_input_errors_spec (render : String → String) (raw : Bool)
    (s : Store) (username : String) (verify : String → Bool)
    (creds : Option (String × String)) :
    ((deleteNoteHandler "" s).1.status = 400
      ∧ (deleteNoteHandler "" s).2 = s)
    ∧ ((shareNoteHandler "" s).1.status = 400
      ∧ (shareNoteHandler "" s).2 = s)
    ∧ ((syncNoteHandlerInner render raw none s).1.status = 400
      ∧ (syncNoteHandlerInner render raw none s).2 = s)
    ∧ (readNoteHandler username verify creds "" s).status = 400 := by
  refine ⟨⟨?_, ?_⟩, ⟨?_, ?_⟩, ⟨?_, ?_⟩, ?_⟩ <;>
    simp [deleteNoteHandler, shareNoteHandler, syncNoteHandlerInner,
      readNoteHandler, badRequest]

/-- C5: deleting an existing (nonempty) title answers 200 and removes
the first note with that title — the count drops by one, the
differently-titled notes are untouched, and under duplicate-free titles
the title is gone; deleting an absent title answers 404 and leaves the
collection unchanged, never a silent no-op. -/
theorem deleteNote_spec (t : String) (s : Store) (h : t ≠ "") :
    (existsTitle t s = true →
      (deleteNoteHandler t s).1.status = 200
        ∧ (deleteNoteHandler t s).2 = deleteFirst t s
        ∧ ((deleteNoteHandler t s).2).length + 1 = s.length
        ∧ filterNe t (deleteNoteHandler t s).2 = filterNe t s
        ∧ (titlesNodup s →
            existsTitle t (deleteNoteHandler t s).2 = false))
    ∧ (existsTitle t s = false →
      (deleteNoteHandler t s).1.status = 404
        ∧ (deleteNoteHandler t s).2 = s) := by
  constructor
  · intro he
    refine ⟨?_, delState_exists h he, ?_, ?_, ?_⟩
    · simp [deleteNoteHandler, h, he, ok]
    · rw [delState_exists h he]
      exact length_deleteFirst he
    · rw [delState_exists h he]
      exact filterNe_deleteFirst _ _
    · intro hnd
      rw [delState_exists h he]
      exact existsTitle_deleteFirst_self hnd
  · intro he
    refine ⟨?_, delState_notExists he⟩
    simp [deleteNoteHandler, h, he, notFound]

/-- C5, witness: deleting the present title `a` from a one-note store
answers 200 and leaves the store empty of `a`. -/
theorem deleteNote_spec_witness :
    ("a" : String) ≠ ""
    ∧ existsTitle "a" [⟨"a", "b", false⟩] = true
    ∧ (deleteNoteHandler "a" [⟨"a", "b", false⟩]).1.status = 200
    ∧ ((deleteNoteHandler "a" [⟨"a", "b", false⟩]).2).length + 1
        = ([⟨"a", "b", false⟩] : Store).length :=
  ⟨by decide, by decide,
   ((deleteNote_spec "a" [⟨"a", "b", false⟩] (by decide)).1 (by decide)).1,
   ((deleteNote_spec "a" [⟨"a", "b", false⟩] (by decide)).1
     (by decide)).2.2.1⟩

/-- C6: a note written through `/sync-raw` stores the request body
byte-for-byte, and a subsequent authorized read answers 200 with the
note page in which the stored body occurs unchanged. -/
theorem syncRaw_roundTrip (render : String → String) (t b : String)
    (s : Store) (username : String) (verify : String → Bool)
    (creds : Option (String × String)) (ht : t ≠ "")
    (ha : authOk username verify creds = true) :
    ∃ n, findTitle t (syncNoteRawHandler render (some ⟨t, b⟩) s).2
        = some n
      ∧ n.body = b
      ∧ readNoteHandler username verify creds t
          (syncNoteRawHandler render (some ⟨t, b⟩) s).2
          = ⟨200, renderNoteHTML n, false⟩
      ∧ ∃ pre post, renderNoteHTML n = pre ++ b ++ post := by
  obtain ⟨n, hfn, hb⟩ := sync_stored_body render true t b s
  have hb' : n.body = b := by simpa using hb
  have hfn' : findTitle t (syncNoteRawHandler render (some ⟨t, b⟩) s).2
      = some n := hfn
  refine ⟨n, hfn', hb', ?_, ?_⟩
  · rw [readNoteHandler, if_neg ht, hfn']
    by_cases hs : n.shared = true <;> simp [hs, ha]
  · refine ⟨pageSeg0 ++ n.title ++ pageSeg1,
      pageSeg2 ++ n.title ++ pageSeg3, ?_⟩
    rw [renderNoteHTML, hb']
    simp [String.append_assoc]

/-- C6, witness: raw-syncing body `b` under title `a` into the empty
store and reading it back with valid credentials round-trips. -/
theorem syncRaw_roundTrip_witness :
    ("a" : String) ≠ ""
    ∧ authOk "u" (fun p => p == "pw") (some ("u", "pw")) = true
    ∧ ∃ n, findTitle "a"
          (syncNoteRawHandler mdToHTMLModel (some ⟨"a", "b"⟩) []).2
          = some n
        ∧ n.body = "b"
        ∧ readNoteHandler "u" (fun p => p == "pw") (some ("u", "pw")) "a"
            (syncNoteRawHandler mdToHTMLModel (some ⟨"a", "b"⟩) []).2
            = ⟨200, renderNoteHTML n, false⟩
        ∧ ∃ pre post, renderNoteHTML n = pre ++ "b" ++ post :=
  ⟨by decide, by decide,
   syncRaw_roundTrip mdToHTMLModel "a" "b" [] "u" (fun p => p == "pw")
     (some ("u", "pw")) (by decide) (by decide)⟩

/-- C7: the auth middleware admits a request exactly when credentials
are present, the provided username equals the configured one
byte-for-byte, and the provided password verifies against the stored
bcrypt hash; on success the wrapped handler runs unchanged; on failure
the response is 401 with a `WWW-Authenticate: Basic` challenge and the
wrapped handler is never invoked (the result does not depend on it). -/
theorem authMiddleware_spec (next : Store → Response × Store)
    (username : String) (verify : String → Bool)
    (creds : Option (String × String)) (s : Store) :
    (authOk username verify creds = true
      ↔ ∃ u p, creds = some (u, p) ∧ u = username ∧ verify p = true)
    ∧ (authOk username verify creds = true →
        authMiddleware next username verify creds s = next s)
    ∧ (authOk username verify creds = false →
        authMiddleware next username verify creds s = (unauthorized, s)
        ∧ unauthorized.status = 401
        ∧ unauthorized.wwwAuthenticate = true
        ∧ ∀ next2 : Store → Response × Store,
            authMiddleware next2 username verify creds s
              = authMiddleware next username verify creds s) := by
  refine ⟨?_, ?_, ?_⟩
  · cases creds with
    | none => simp [authOk]
    | some up =>
      obtain ⟨u, p⟩ := up
      constructor
      · intro ha
        by_cases hu : u = username
        · refine ⟨u, p, rfl, hu, ?_⟩
          simpa [authOk, hu] using ha
        · simp [authOk, hu] at ha
      · rintro ⟨u', p', heq, hu', hv⟩
        cases heq
        simp [authOk, hu', hv]
  · intro ha
    simp [authMiddleware, ha]
  · intro ha
    refine ⟨by simp [authMiddleware, ha], rfl, rfl, ?_⟩
    intro next2
    simp [authMiddleware, ha]

/-- C7, witness: with no credentials supplied, the middleware answers
401 with the challenge and does not run the wrapped handler. -/
theorem authMiddleware_spec_witness :
    authOk "u" (fun p => p == "pw") none = false
    ∧ authMiddleware (fun st => (ok "x", st)) "u" (fun p => p == "pw")
        none [] = (unauthorized, ([] : Store)) :=
  ⟨by decide,
   ((authMiddleware_spec (fun st => (ok "x", st)) "u" (fun p => p == "pw")
     none []).2.2 (by decide)).1⟩

/-- C8: visibility is monotone along every operation sequence: starting
from a duplicate-free store in which the note titled `t` is shared, as
long as a note titled `t` still exists after every prefix of the
sequence, the note titled `t` is still shared at the end — no upsert,
delete or mark-shared transition unshares an existing note. -/
theorem visibility_monotone (render : String → String) (ops : List Op)
    (s : Store) (t : String) (hnd : titlesNodup s)
    (hsh : noteShared t s = true)
    (hex : ∀ k, k ≤ ops.length →
      existsTitle t (applyOps render (ops.take k) s) = true) :
    noteShared t (applyOps render ops s) = true :=
  noteShared_applyOps_aux render t ops s hnd hsh hex

/-- C8, witness: a shared note `a` stays shared across a raw upsert
that rewrites its body. -/
theorem visibility_monotone_witness :
    noteShared "a"
      (applyOps mdToHTMLModel [Op.upsert true "a" "c"]
        [⟨"a", "b", true⟩]) = true :=
  visibility_monotone mdToHTMLModel [Op.upsert true "a" "c"]
    [⟨"a", "b", true⟩] "a" (by decide) (by decide)
    (by
      intro k hk
      match k with
      | 0 => decide
      | 1 => decide
      | n + 2 => exact absurd hk (by simp))

/-- C9: title uniqueness is an invariant: from a duplicate-free store,
after any sequence of upsert, delete and mark-shared operations the
titles are still pairwise distinct — an upsert of an existing title
replaces in place and never appends a duplicate. -/
theorem title_uniqueness_invariant (render : String → String)
    (ops : List Op) (s : Store) (h : titlesNodup s) :
    titlesNodup (applyOps render ops s) :=
  titlesNodup_applyOps render ops s h

/-- C9, witness: two upserts of the same title followed by a share from
the empty store leave the titles duplicate-free. -/
theorem title_uniqueness_invariant_witness :
    titlesNodup (applyOps mdToHTMLModel
      [Op.upsert true "a" "b", Op.upsert true "a" "c", Op.share "a"]
      []) :=
  title_uniqueness_invariant mdToHTMLModel
    [Op.upsert true "a" "b", Op.upsert true "a" "c", Op.share "a"]
    [] (by decide)

/-- C10: every mutating operation targeting title `t` is
frame-preserving: the differently-titled notes keep their title, body
and shared flag and their relative order (`filterNe` is unchanged for
all three operations); a delete leaves a sublist of the original store
(surviving order preserved); a share and an upsert of an existing title
keep the full title sequence positionally unchanged; an upsert of a new
title appends it at the end. -/
theorem frame_preservation (render : String → String) (raw : Bool)
    (t b : String) (s : Store) :
    filterNe t (syncNoteHandlerInner render raw (some ⟨t, b⟩) s).2
        = filterNe t s
    ∧ filterNe t (deleteNoteHandler t s).2 = filterNe t s
    ∧ filterNe t (shareNoteHandler t s).2 = filterNe t s
    ∧ (existsTitle t s = false →
        (syncNoteHandlerInner render raw (some ⟨t, b⟩) s).2
          = s ++ [⟨t, if raw then b else render b, false⟩])
    ∧ ((deleteNoteHandler t s).2).Sublist s
    ∧ ((shareNoteHandler t s).2).map Note.title = s.map Note.title
    ∧ (existsTitle t s = true →
        ((syncNoteHandlerInner render raw (some ⟨t, b⟩) s).2).map
          Note.title = s.map Note.title) := by
  refine ⟨?_, ?_, ?_, ?_, ?_, ?_, ?_⟩
  · by_cases he : existsTitle t s = true
    · rw [syncState_exists he]
      exact filterNe_updateBodyFirst _ _ _
    · have he' : existsTitle t s = false := by simpa using he
      rw [syncState_notExists he', filterNe_append]
      simp [filterNe]
  · by_cases h0 : t = ""
    · rw [delState_empty s h0]
    · by_cases he : existsTitle t s = true
      · rw [delState_exists h0 he]
        exact filterNe_deleteFirst _ _
      · rw [delState_notExists (by simpa using he)]
  · by_cases h0 : t = ""
    · rw [shareState_empty s h0]
    · by_cases he : existsTitle t s = true
      · rw [shareState_exists h0 he]
        exact filterNe_shareFirst _ _
      · rw [shareState_notExists (by simpa using he)]
  · intro he
    exact syncState_notExists he
  · by_cases h0 : t = ""
    · rw [delState_empty s h0]
    · by_cases he : existsTitle t s = true
      · rw [delState_exists h0 he]
        exact sublist_deleteFirst _ _
      · rw [delState_notExists (by simpa using he)]
  · by_cases h0 : t = ""
    · rw [shareState_empty s h0]
    · by_cases he : existsTitle t s = true
      · rw [shareState_exists h0 he]
        exact map_title_shareFirst _ _
      · rw [shareState_notExists (by simpa using he)]
  · intro he
    rw [syncState_exists he]
    exact map_title_updateBodyFirst _ _ _

/-- C10, witness: upserting the absent title `a` into the empty store
appends the new note at the end. -/
theorem frame_preservation_witness :
    existsTitle "a" ([] : Store) = false
    ∧ (syncNoteHandlerInner mdToHTMLModel false (some ⟨"a", "b"⟩) []).2
        = [] ++ [⟨"a", if false then "b" else mdToHTMLModel "b", false⟩] :=
  ⟨by decide,
   (frame_preservation mdToHTMLModel false "a" "b" []).2.2.2.1
     (by decide)⟩

end Livenote
